import Mathlib

/-!
Shallow embedding of the Documenter-MCP analysis pipeline
(`src/models.py`, `src/parsers/base.py`, `src/analyzers/checker.py`,
`src/analyzers/evaluator.py`, `src/core/orchestrator.py`).

Python strings are Lean `String`, `None`-able strings are `Option String`
(with Python truthiness `none`/`""` ↦ false), Python lists are Lean `List`,
Python dicts are insertion-ordered association lists, and floats that the
code only builds by division of counters are `Rat`.
-/

namespace Documenter

/-- Python truthiness of an `Optional[str]`: `None` and `""` are falsy. -/
def pyTruthy : Option String → Bool
  | none => false
  | some s => !s.isEmpty

/-- `models.DocumentationStatus`. -/
inductive DocumentationStatus where
  | missing
  | incomplete
  | outdated
  | good
  | excellent
deriving DecidableEq, Repr

/-- `models.CodeElementType` (the members the parser produces). -/
inductive CodeElementType where
  | function
  | method
  | class_
  | module
deriving DecidableEq, Repr

/-- `models.Parameter`. -/
structure Parameter where
  name : String
  type_hint : Option String := none
  default_value : Option String := none
  description : Option String := none
  is_required : Bool := true
deriving DecidableEq, Repr

/-- `models.ReturnInfo`. -/
structure ReturnInfo where
  type_hint : Option String := none
  description : Option String := none
deriving DecidableEq, Repr

/-- `models.ExceptionInfo` (the `conditions` field is never touched). -/
structure ExceptionInfo where
  exception_type : String
  description : Option String := none
deriving DecidableEq, Repr

/-- `models.CodeElement`, restricted to the fields the embedded code reads or
writes.  It is an inductive (not a structure) because the `methods`,
`classes` and `functions` fields recursively hold code elements. -/
inductive CodeElement where
  | mk
    (name : String)
    (element_type : CodeElementType)
    (file_path : String)
    (line_number : Nat)
    (end_line_number : Option Nat)
    (docstring : Option String)
    (summary : Option String)
    (description : Option String)
    (parameters : List Parameter)
    (return_info : Option ReturnInfo)
    (exceptions : List ExceptionInfo)
    (methods : List CodeElement)
    (classes : List CodeElement)
    (functions : List CodeElement)
    (status : DocumentationStatus)
    (issues : List String)
    (visibility : String)

namespace CodeElement

def name : CodeElement → String
  | .mk n _ _ _ _ _ _ _ _ _ _ _ _ _ _ _ _ => n

def element_type : CodeElement → CodeElementType
  | .mk _ t _ _ _ _ _ _ _ _ _ _ _ _ _ _ _ => t

def file_path : CodeElement → String
  | .mk _ _ f _ _ _ _ _ _ _ _ _ _ _ _ _ _ => f

def line_number : CodeElement → Nat
  | .mk _ _ _ l _ _ _ _ _ _ _ _ _ _ _ _ _ => l

def end_line_number : CodeElement → Option Nat
  | .mk _ _ _ _ e _ _ _ _ _ _ _ _ _ _ _ _ => e

def docstring : CodeElement → Option String
  | .mk _ _ _ _ _ d _ _ _ _ _ _ _ _ _ _ _ => d

def summary : CodeElement → Option String
  | .mk _ _ _ _ _ _ s _ _ _ _ _ _ _ _ _ _ => s

def description : CodeElement → Option String
  | .mk _ _ _ _ _ _ _ d _ _ _ _ _ _ _ _ _ => d

def parameters : CodeElement → List Parameter
  | .mk _ _ _ _ _ _ _ _ p _ _ _ _ _ _ _ _ => p

def return_info : CodeElement → Option ReturnInfo
  | .mk _ _ _ _ _ _ _ _ _ r _ _ _ _ _ _ _ => r

def exceptions : CodeElement → List ExceptionInfo
  | .mk _ _ _ _ _ _ _ _ _ _ e _ _ _ _ _ _ => e

def methods : CodeElement → List CodeElement
  | .mk _ _ _ _ _ _ _ _ _ _ _ m _ _ _ _ _ => m

def classes : CodeElement → List CodeElement
  | .mk _ _ _ _ _ _ _ _ _ _ _ _ c _ _ _ _ => c

def functions : CodeElement → List CodeElement
  | .mk _ _ _ _ _ _ _ _ _ _ _ _ _ f _ _ _ => f

def status : CodeElement → DocumentationStatus
  | .mk _ _ _ _ _ _ _ _ _ _ _ _ _ _ s _ _ => s

def issues : CodeElement → List String
  | .mk _ _ _ _ _ _ _ _ _ _ _ _ _ _ _ i _ => i

def visibility : CodeElement → String
  | .mk _ _ _ _ _ _ _ _ _ _ _ _ _ _ _ _ v => v

/-- The in-place update `element.issues = ...; element.status = ...`
performed at the end of `DocumentationChecker._check_element`. -/
def withIssuesStatus (e : CodeElement) (is : List String)
    (st : DocumentationStatus) : CodeElement :=
  match e with
  | .mk n t f l el d s de p r ex m c fu _ _ v =>
      .mk n t f l el d s de p r ex m c fu st is v

end CodeElement

/-- `models.DocumentationIssue`. -/
structure DocumentationIssue where
  element : CodeElement
  issue_type : String
  severity : String
  message : String
  suggestion : Option String := none
  line_number : Option Nat := none

/-- `models.FileAnalysisResult`, restricted to the fields the embedded code
reads or writes. -/
structure FileAnalysisResult where
  file_path : String
  language : String
  elements : List CodeElement := []
  issues : List DocumentationIssue := []
  coverage_score : Rat := 0
  total_elements : Nat := 0
  documented_elements : Nat := 0

/-- `config.AnalysisConfig`. -/
structure AnalysisConfig where
  check_presence : Bool := true
  check_format : Bool := true
  check_completeness : Bool := true
  evaluate_clarity : Bool := true
  evaluate_consistency : Bool := true
  check_sync : Bool := true

/-- `config.DocumentationFormat`, restricted to the `style` field (the only
one the checker reads). -/
structure DocumentationFormat where
  style : String := "google"

/-- `config.LanguageConfig`, restricted to `doc_format`. -/
structure LanguageConfig where
  doc_format : DocumentationFormat

/-- `config.ServerConfig`, restricted to the fields the analyzers read.
`languages` is the insertion-ordered dict of language name to config. -/
structure ServerConfig where
  languages : List (String × LanguageConfig) := []
  analysis : AnalysisConfig := {}

/-- Python `dict.get(key)` on an insertion-ordered association list (keys
are unique: every dict in the embedding is built through `dictSet`). -/
def dictGet {α : Type} : List (String × α) → String → Option α
  | [], _ => none
  | (k0, v0) :: rest, k => if k0 == k then some v0 else dictGet rest k

/-- Python `d[key] = v` on an insertion-ordered association list: replaces
the value in place if the key exists, else appends the binding. -/
def dictSet {α : Type} : List (String × α) → String → α → List (String × α)
  | [], k, v => [(k, v)]
  | (k0, v0) :: rest, k, v =>
      if k0 == k then (k, v) :: rest else (k0, v0) :: dictSet rest k v

/-! ### String helpers modelling the Python `re` patterns used by the
analyzers.  Each helper implements exactly one concrete pattern from the
source (with its documented backtracking behaviour), not a general regex
engine.  The character classes are the ASCII readings of `\s` and `\w`;
every docstring the analyzers look at in the claims is ASCII. -/

/-- Python `\s` (ASCII): space, tab, newline, carriage return, vertical tab,
form feed. -/
def pySpace (c : Char) : Bool :=
  c = ' ' || c = '\t' || c = '\n' || c = '\r' || c = '\x0b' || c = '\x0c'

/-- Python `\w` (ASCII): letters, digits, underscore. -/
def pyWord (c : Char) : Bool :=
  c.isAlpha || c.isDigit || c = '_'

/-- Python `str.strip()`. -/
def pyStrip (s : String) : String :=
  ⟨((s.data.dropWhile pySpace).reverse.dropWhile pySpace).reverse⟩

/-- Python `needle in hay` (substring containment). -/
def listHasInfix (needle : List Char) : List Char → Bool
  | [] => needle.isEmpty
  | c :: rest => needle.isPrefixOf (c :: rest) || listHasInfix needle rest

/-- Python `needle in hay` on strings. -/
def strContains (hay needle : String) : Bool :=
  listHasInfix needle.data hay.data

/-- Python `str.startswith`. -/
def pyStartsWith (s p : String) : Bool :=
  p.data.isPrefixOf s.data

/-- Python `str.endswith`. -/
def pyEndsWith (s p : String) : Bool :=
  p.data.isSuffixOf s.data

/-- Index of the last `'\n'` in a list, if any. -/
def lastNewline : List Char → Option Nat
  | [] => none
  | c :: rest =>
      match lastNewline rest with
      | some k => some (k + 1)
      | none => if c = '\n' then some 0 else none

/-- Does the lookahead `(?=\n\s*\w+:)` match at this position?  `\s*` can
only consume whitespace, so it must consume the maximal whitespace run, and
`\w+` (being greedy, with `:` not a word character) must consume the maximal
word run. -/
def stopHere (l : List Char) : Bool :=
  match l with
  | '\n' :: rest =>
      let r := rest.dropWhile pySpace
      let w := r.takeWhile pyWord
      !w.isEmpty &&
        (match r.drop w.length with
         | ':' :: _ => true
         | _ => false)
  | _ => false

/-- Does `$` (no `re.MULTILINE`) match at this position: end of string, or
just before a terminating final newline? -/
def dollarStop (l : List Char) : Bool :=
  match l with
  | [] => true
  | ['\n'] => true
  | _ => false

/-- The characters a lazy `(.*?)(?=\n\s*\w+:|$)` group (under `re.DOTALL`)
consumes: everything before the first position where the lookahead or `$`
matches. -/
def lazyTake : List Char → List Char
  | [] => []
  | c :: rest =>
      if stopHere (c :: rest) || dollarStop (c :: rest) then []
      else c :: lazyTake rest

/-- `re.search(rf'{tag}\s*\n(.*?)(?=\n\s*\w+:|$)', s, re.DOTALL).group(1)`:
find the leftmost occurrence of the literal `tag` followed by whitespace
containing a newline; the greedy `\s*\n` ends at the last newline of that
whitespace run, and the lazy group runs to the first stop. -/
def findTagSection (tag : List Char) : List Char → Option (List Char)
  | [] => none
  | c :: rest =>
      if tag.isPrefixOf (c :: rest) then
        let after := (c :: rest).drop tag.length
        let w := after.takeWhile pySpace
        match lastNewline w with
        | some k => some (lazyTake (after.drop (k + 1)))
        | none => findTagSection tag rest
      else findTagSection tag rest

theorem dropWhile_length_le {α : Type} (p : α → Bool) (l : List α) :
    (l.dropWhile p).length ≤ l.length := by
  induction l with
  | nil => simp [List.dropWhile]
  | cons a t ih =>
      simp only [List.dropWhile]
      cases p a <;> simp <;> omega

/-- `re.finditer(r'(\w+):\s*(.*?)(?=\n\s*\w+:|$)', section, re.DOTALL)`:
each match is a maximal word run immediately followed by `:`, then the
greedy `\s*` skip, then the lazy description up to the first stop; scanning
resumes at the end of the description. -/
def argsFinditerGo : Nat → List Char → List (String × String)
  | 0, _ => []
  | _, [] => []
  | fuel + 1, c :: rest =>
      if pyWord c then
        match (c :: rest).drop ((c :: rest).takeWhile pyWord).length with
        | ':' :: r2 =>
            (⟨(c :: rest).takeWhile pyWord⟩, ⟨lazyTake (r2.dropWhile pySpace)⟩) ::
              argsFinditerGo fuel
                ((r2.dropWhile pySpace).drop (lazyTake (r2.dropWhile pySpace)).length)
        | _ => argsFinditerGo fuel rest
      else argsFinditerGo fuel rest

def argsFinditer (l : List Char) : List (String × String) :=
  argsFinditerGo l.length l

/-- `re.finditer(r':param (\w+):\s*(.*?)(?=\n|$)', docstring)` (no
`re.DOTALL`): the description stops at the first newline or the end. -/
def sphinxParamFinditerGo : Nat → List Char → List (String × String)
  | 0, _ => []
  | _, [] => []
  | fuel + 1, c :: rest =>
      if ":param ".data.isPrefixOf (c :: rest) then
        if (((c :: rest).drop 7).takeWhile pyWord).isEmpty then
          sphinxParamFinditerGo fuel rest
        else
          match ((c :: rest).drop 7).drop
              (((c :: rest).drop 7).takeWhile pyWord).length with
          | ':' :: r2 =>
              (⟨((c :: rest).drop 7).takeWhile pyWord⟩,
               ⟨(r2.dropWhile pySpace).takeWhile (fun ch => ch ≠ '\n')⟩) ::
                sphinxParamFinditerGo fuel
                  ((r2.dropWhile pySpace).drop
                    ((r2.dropWhile pySpace).takeWhile (fun ch => ch ≠ '\n')).length)
          | _ => sphinxParamFinditerGo fuel rest
      else sphinxParamFinditerGo fuel rest

def sphinxParamFinditer (l : List Char) : List (String × String) :=
  sphinxParamFinditerGo l.length l

/-- `re.search(rf'\n\s*{lit}', s)` for a literal `lit` starting with a
non-whitespace character: some newline is followed, after its maximal
whitespace run, by the literal. -/
def searchNlSpacesLit (lit : List Char) : List Char → Bool
  | [] => false
  | c :: rest =>
      (c = '\n' && lit.isPrefixOf (rest.dropWhile pySpace)) ||
        searchNlSpacesLit lit rest

/-- `re.search(r'\n\s*Parameters\s*\n\s*-+', s)`: a newline, whitespace,
the literal `Parameters`, then a whitespace run containing a newline and
ending right before a dash. -/
def searchNumpyParams : List Char → Bool
  | [] => false
  | c :: rest =>
      (c = '\n' &&
        ("Parameters".data.isPrefixOf (rest.dropWhile pySpace) &&
          (((rest.dropWhile pySpace).drop 10).takeWhile pySpace).any (· = '\n') &&
          (match ((rest.dropWhile pySpace).drop 10).dropWhile pySpace with
           | '-' :: _ => true
           | _ => false))) ||
        searchNumpyParams rest

/-- `re.search(rf'@param \x7b[^\x7d]*\x7d {name}', s)` (the JSDoc pattern):
the literal `@param ` and an open brace, a maximal run of non-close-brace
characters, a close brace, a space, then the parameter name. -/
def searchJsdocParamName (name : List Char) : List Char → Bool
  | [] => false
  | c :: rest =>
      ("@param \x7b".data.isPrefixOf (c :: rest) &&
        (match ((c :: rest).drop 8).dropWhile (fun ch => ch ≠ '\x7d') with
         | '\x7d' :: r2 => (' ' :: name).isPrefixOf r2
         | _ => false)) ||
        searchJsdocParamName name rest

/-- Case-insensitive literal prefix test (`lit` given in lowercase). -/
def ciPrefix (lit : List Char) (l : List Char) : Bool :=
  ((l.take lit.length).map Char.toLower) == lit

/-- After `return`/`returns` (chosen by `allowS`), the `:` and then
`\s*\w+`: a colon, a maximal whitespace run, and at least one word
character. -/
def retColonSpacesWord (allowS : Bool) (l : List Char) : Bool :=
  if ciPrefix "return".data l then
    match l.drop 6 with
    | c :: r2 =>
        if allowS && c.toLower = 's' then
          match r2 with
          | ':' :: r3 =>
              (match r3.dropWhile pySpace with
               | y :: _ => pyWord y
               | [] => false)
          | _ => false
        else if c = ':' then
          (match r2.dropWhile pySpace with
           | y :: _ => pyWord y
           | [] => false)
        else false
    | [] => false
  else false

/-- `re.search(r'\n\s*Returns?:\s*\w+', s, re.IGNORECASE)` (and the
`Return:` variant via `allowS := false`). -/
def searchNlRetDoc (allowS : Bool) : List Char → Bool
  | [] => false
  | c :: rest =>
      (c = '\n' && retColonSpacesWord allowS (rest.dropWhile pySpace)) ||
        searchNlRetDoc allowS rest

/-- `re.search(r':returns?:\s*\w+', s, re.IGNORECASE)` (and the `:return:`
variant via `allowS := false`). -/
def searchColonRetDoc (allowS : Bool) : List Char → Bool
  | [] => false
  | c :: rest =>
      (c = ':' && retColonSpacesWord allowS (c :: rest).tail) ||
        searchColonRetDoc allowS rest

/-- After `@return`/`@returns`, `\s+\w+`: a nonempty maximal whitespace run
then a word character. -/
def searchAtRetDoc (allowS : Bool) : List Char → Bool
  | [] => false
  | c :: rest =>
      (c = '@' &&
        (ciPrefix "return".data rest &&
          (match hs : rest.drop 6 with
           | x :: r2 =>
               if allowS && x.toLower = 's' then
                 (match r2 with
                  | y :: r3 =>
                      pySpace y &&
                        (match r3.dropWhile pySpace with
                         | z :: _ => pyWord z
                         | [] => false)
                  | [] => false)
               else
                 pySpace x &&
                   (match r2.dropWhile pySpace with
                    | z :: _ => pyWord z
                    | [] => false)
           | [] => false))) ||
        searchAtRetDoc allowS rest

/-- The maximal `\w+(?:\.\w+)*` run at the head of the list (the head is
assumed to be a word character when it matters). -/
def takeDottedGo : Nat → List Char → List Char
  | 0, l => l.takeWhile pyWord
  | fuel + 1, l =>
      match l.drop (l.takeWhile pyWord).length with
      | '.' :: r2 =>
          if (r2.takeWhile pyWord).isEmpty then l.takeWhile pyWord
          else l.takeWhile pyWord ++ '.' :: takeDottedGo fuel r2
      | _ => l.takeWhile pyWord

def takeDotted (l : List Char) : List Char :=
  takeDottedGo l.length l

/-- `re.finditer(r'(\w+(?:\.\w+)*):', section)`: each match is a maximal
dotted name immediately followed by `:`; scanning resumes after the colon. -/
def dottedFinditerGo : Nat → List Char → List String
  | 0, _ => []
  | _, [] => []
  | fuel + 1, c :: rest =>
      if pyWord c then
        match (c :: rest).drop (takeDotted (c :: rest)).length with
        | ':' :: r2 =>
            (⟨takeDotted (c :: rest)⟩ : String) :: dottedFinditerGo fuel r2
        | _ => dottedFinditerGo fuel rest
      else dottedFinditerGo fuel rest

def dottedFinditer (l : List Char) : List String :=
  dottedFinditerGo l.length l

/-- `re.finditer(r':raises (\w+(?:\.\w+)*):', s)`. -/
def sphinxRaisesFinditerGo : Nat → List Char → List String
  | 0, _ => []
  | _, [] => []
  | fuel + 1, c :: rest =>
      if ":raises ".data.isPrefixOf (c :: rest) then
        if (((c :: rest).drop 8).takeWhile pyWord).isEmpty then
          sphinxRaisesFinditerGo fuel rest
        else
          match ((c :: rest).drop 8).drop
              (takeDotted ((c :: rest).drop 8)).length with
          | ':' :: r2 =>
              (⟨takeDotted ((c :: rest).drop 8)⟩ : String) ::
                sphinxRaisesFinditerGo fuel r2
          | _ => sphinxRaisesFinditerGo fuel rest
      else sphinxRaisesFinditerGo fuel rest

def sphinxRaisesFinditer (l : List Char) : List String :=
  sphinxRaisesFinditerGo l.length l

/-- Python `set.add` on a first-insertion-ordered duplicate-free list. -/
def setAdd (l : List String) (x : String) : List String :=
  if l.contains x then l else l ++ [x]

namespace DocumentationChecker

/-- `DocumentationChecker._determine_status` (checker.py lines 415-437). -/
def _determine_status (element : CodeElement)
    (issues : List DocumentationIssue) : DocumentationStatus :=
  if !(pyTruthy element.docstring) then .missing
  else
    let critical_issues := (issues.filter (fun i => i.severity == "critical")).length
    let high_issues := (issues.filter (fun i => i.severity == "high")).length
    let medium_issues := (issues.filter (fun i => i.severity == "medium")).length
    let low_issues := (issues.filter (fun i => i.severity == "low")).length
    if critical_issues > 0 then .incomplete
    else if high_issues > 0 then .incomplete
    else if medium_issues > 2 then .incomplete
    else if medium_issues > 0 ∨ low_issues > 3 then .outdated
    else if low_issues > 0 then .good
    else .excellent

/-- `element_type.value.title()` for the element types the parser makes. -/
def titleValue : CodeElementType → String
  | .function => "Function"
  | .method => "Method"
  | .class_ => "Class"
  | .module => "Module"

/-- `DocumentationChecker._should_have_documentation` (lines 321-344). -/
def _should_have_documentation (element : CodeElement) : Bool :=
  if element.visibility == "public" then true
  else if element.visibility == "protected" then true
  else if element.visibility == "private" then false
  else if element.visibility == "special" then
    ["__init__", "__str__", "__repr__", "__call__",
     "__enter__", "__exit__", "__iter__", "__next__"].contains element.name
  else true

/-- `not element.docstring or not element.docstring.strip()`. -/
def noDocOrBlank (d : Option String) : Bool :=
  match d with
  | none => true
  | some s => s.isEmpty || (pyStrip s).isEmpty

/-- `DocumentationChecker._check_presence` (lines 58-78). -/
def _check_presence (cfg : AnalysisConfig) (element : CodeElement) :
    List DocumentationIssue :=
  if !cfg.check_presence then []
  else if _should_have_documentation element then
    if noDocOrBlank element.docstring then
      [{ element := element, issue_type := "missing_documentation",
         severity := if element.visibility == "public" then "high" else "medium",
         message := titleValue element.element_type ++ " '" ++ element.name ++
           "' is missing documentation",
         suggestion := some ("Add a docstring to describe the purpose and usage of "
           ++ element.name),
         line_number := some element.line_number }]
    else []
  else []

/-- `DocumentationChecker._check_google_format` (lines 134-161). -/
def _check_google_format (element : CodeElement) : List DocumentationIssue :=
  if element.element_type == .function || element.element_type == .method then
    (if !element.parameters.isEmpty &&
        !searchNlSpacesLit "Args:".data (element.docstring.getD "").data then
      [{ element := element, issue_type := "format_violation", severity := "low",
         message := "Google-style docstring should have 'Args:' section for parameters",
         suggestion := some "Add 'Args:' section to document parameters",
         line_number := some element.line_number }]
    else []) ++
    (if element.return_info.isSome &&
        !searchNlSpacesLit "Returns:".data (element.docstring.getD "").data then
      [{ element := element, issue_type := "format_violation", severity := "low",
         message := "Google-style docstring should have 'Returns:' section",
         suggestion := some "Add 'Returns:' section to document return value",
         line_number := some element.line_number }]
    else [])
  else []

/-- `DocumentationChecker._check_numpy_format` (lines 163-180). -/
def _check_numpy_format (element : CodeElement) : List DocumentationIssue :=
  if element.element_type == .function || element.element_type == .method then
    if !element.parameters.isEmpty &&
        !searchNumpyParams (element.docstring.getD "").data then
      [{ element := element, issue_type := "format_violation", severity := "low",
         message := "NumPy-style docstring should have 'Parameters' section with underline",
         suggestion := some "Add 'Parameters' section with dashes underline",
         line_number := some element.line_number }]
    else []
  else []

/-- `DocumentationChecker._check_sphinx_format` (lines 182-200). -/
def _check_sphinx_format (element : CodeElement) : List DocumentationIssue :=
  if element.element_type == .function || element.element_type == .method then
    element.parameters.bind (fun param =>
      if !strContains (element.docstring.getD "") (":param " ++ param.name ++ ":") then
        [{ element := element, issue_type := "format_violation", severity := "low",
           message := "Sphinx-style docstring missing ':param " ++ param.name ++
             ":' directive",
           suggestion := some ("Add ':param " ++ param.name ++ ": description' directive"),
           line_number := some element.line_number }]
      else [])
  else []

/-- `DocumentationChecker._check_javadoc_format` (lines 202-220). -/
def _check_javadoc_format (element : CodeElement) : List DocumentationIssue :=
  if element.element_type == .function || element.element_type == .method then
    element.parameters.bind (fun param =>
      if !strContains (element.docstring.getD "") ("@param " ++ param.name) then
        [{ element := element, issue_type := "format_violation", severity := "low",
           message := "Javadoc-style comment missing '@param " ++ param.name ++ "' tag",
           suggestion := some ("Add '@param " ++ param.name ++ " description' tag"),
           line_number := some element.line_number }]
      else [])
  else []

/-- `DocumentationChecker._check_jsdoc_format` (lines 222-240). -/
def _check_jsdoc_format (element : CodeElement) : List DocumentationIssue :=
  if element.element_type == .function || element.element_type == .method then
    element.parameters.bind (fun param =>
      if !searchJsdocParamName param.name.data (element.docstring.getD "").data then
        [{ element := element, issue_type := "format_violation", severity := "low",
           message := "JSDoc-style comment missing '@param \x7btype\x7d " ++
             param.name ++ "' tag",
           suggestion := some ("Add '@param \x7btype\x7d " ++ param.name ++
             " description' tag"),
           line_number := some element.line_number }]
      else [])
  else []

/-- `DocumentationChecker._check_format` (lines 80-106). -/
def _check_format (cfg : ServerConfig) (element : CodeElement)
    (language : String) : List DocumentationIssue :=
  if !(pyTruthy element.docstring) then []
  else
    match dictGet cfg.languages language with
    | none => []
    | some lang_config =>
        if lang_config.doc_format.style == "google" then
          _check_google_format element
        else if lang_config.doc_format.style == "numpy" then
          _check_numpy_format element
        else if lang_config.doc_format.style == "sphinx" then
          _check_sphinx_format element
        else if lang_config.doc_format.style == "javadoc" then
          _check_javadoc_format element
        else if lang_config.doc_format.style == "jsdoc" then
          _check_jsdoc_format element
        else []

/-- `DocumentationChecker._has_summary_in_docstring` (lines 346-352). -/
def _has_summary_in_docstring (docstring : Option String) : Bool :=
  match docstring with
  | none => false
  | some s =>
      if s.isEmpty then false
      else
        let first_line := pyStrip ⟨s.data.takeWhile (fun c => c ≠ '\n')⟩
        !first_line.isEmpty &&
          !(pyStartsWith first_line "Args:" || pyStartsWith first_line "Parameters:" ||
            pyStartsWith first_line "Returns:")

/-- `DocumentationChecker._extract_documented_parameters` (lines 354-376):
the Google `Args:` section first, then Sphinx `:param name:` directives,
later entries overwriting earlier ones of the same name. -/
def _extract_documented_parameters (docstring : Option String) :
    List (String × String) :=
  match docstring with
  | none => []
  | some s =>
      if s.isEmpty then []
      else
        let d1 : List (String × String) :=
          match findTagSection "Args:".data s.data with
          | some sec => (argsFinditer sec).foldl (fun d p => dictSet d p.1 p.2) []
          | none => []
        (sphinxParamFinditer s.data).foldl (fun d p => dictSet d p.1 p.2) d1

/-- `DocumentationChecker._check_parameters_documentation` (lines 242-274). -/
def _check_parameters_documentation (element : CodeElement) :
    List DocumentationIssue :=
  let documented := _extract_documented_parameters element.docstring
  element.parameters.bind (fun param =>
    if param.name == "self" || param.name == "cls" then []
    else
      match dictGet documented param.name with
      | none =>
          [{ element := element, issue_type := "missing_parameter_doc",
             severity := "medium",
             message := "Parameter '" ++ param.name ++ "' is not documented",
             suggestion := some ("Add documentation for parameter '" ++
               param.name ++ "'"),
             line_number := some element.line_number }]
      | some desc =>
          if (pyStrip desc).isEmpty then
            [{ element := element, issue_type := "empty_parameter_doc",
               severity := "low",
               message := "Parameter '" ++ param.name ++ "' has empty documentation",
               suggestion := some ("Add description for parameter '" ++
                 param.name ++ "'"),
               line_number := some element.line_number }]
          else [])

/-- `DocumentationChecker._has_return_documentation` (lines 378-393): any of
the six case-insensitive return-documentation patterns (the `Return:`,
`:return:` and `@return` variants are instances of the `Returns?` ones). -/
def _has_return_documentation (docstring : Option String) : Bool :=
  match docstring with
  | none => false
  | some s =>
      if s.isEmpty then false
      else
        searchNlRetDoc true s.data || searchNlRetDoc false s.data ||
        searchColonRetDoc true s.data || searchColonRetDoc false s.data ||
        searchAtRetDoc true s.data || searchAtRetDoc false s.data

/-- `DocumentationChecker._check_return_documentation` (lines 276-297). -/
def _check_return_documentation (element : CodeElement) :
    List DocumentationIssue :=
  if element.return_info.isNone || pyStartsWith element.name "__" ||
      ["main", "setup", "teardown"].contains element.name then []
  else if !_has_return_documentation element.docstring then
    [{ element := element, issue_type := "missing_return_doc",
       severity := "medium",
       message := "Return value is not documented",
       suggestion := some "Add documentation for the return value",
       line_number := some element.line_number }]
  else []

/-- `DocumentationChecker._extract_documented_exceptions` (lines 395-413). -/
def _extract_documented_exceptions (docstring : Option String) : List String :=
  match docstring with
  | none => []
  | some s =>
      if s.isEmpty then []
      else
        let d1 : List String :=
          match findTagSection "Raises:".data s.data with
          | some sec => (dottedFinditer sec).foldl setAdd []
          | none => []
        (sphinxRaisesFinditer s.data).foldl setAdd d1

/-- `DocumentationChecker._check_exceptions_documentation` (lines 299-319). -/
def _check_exceptions_documentation (element : CodeElement) :
    List DocumentationIssue :=
  if element.exceptions.isEmpty then []
  else
    let documented := _extract_documented_exceptions element.docstring
    element.exceptions.bind (fun exc =>
      if documented.contains exc.exception_type then []
      else
        [{ element := element, issue_type := "missing_exception_doc",
           severity := "low",
           message := "Exception '" ++ exc.exception_type ++ "' is not documented",
           suggestion := some ("Add documentation for exception '" ++
             exc.exception_type ++ "'"),
           line_number := some element.line_number }])

/-- `DocumentationChecker._check_completeness` (lines 108-132). -/
def _check_completeness (element : CodeElement) : List DocumentationIssue :=
  if !(pyTruthy element.docstring) then []
  else
    (if !(pyTruthy element.summary) &&
        !_has_summary_in_docstring element.docstring then
      [{ element := element, issue_type := "missing_summary", severity := "medium",
         message := titleValue element.element_type ++ " '" ++ element.name ++
           "' lacks a summary description",
         suggestion := some "Add a brief summary describing what this element does",
         line_number := some element.line_number }]
    else []) ++
    (if element.element_type == .function || element.element_type == .method then
      _check_parameters_documentation element ++
      _check_return_documentation element ++
      _check_exceptions_documentation element
    else [])

/-- `DocumentationChecker._check_element` (lines 32-56): the concatenated
presence, format and completeness issues, and the element updated with its
issue messages and status.  Returned instead of mutated in place. -/
def _check_element (cfg : ServerConfig) (language : String)
    (element : CodeElement) : CodeElement × List DocumentationIssue :=
  let issues :=
    (if cfg.analysis.check_presence then _check_presence cfg.analysis element
     else []) ++
    (if pyTruthy element.docstring && cfg.analysis.check_format then
      _check_format cfg element language
     else []) ++
    (if pyTruthy element.docstring && cfg.analysis.check_completeness then
      _check_completeness element
     else [])
  (element.withIssuesStatus (issues.map (fun i => i.message))
    (_determine_status element issues), issues)

/-- `DocumentationChecker._calculate_coverage` (lines 439-454). -/
def _calculate_coverage (fr : FileAnalysisResult) : FileAnalysisResult :=
  let counts := fr.elements.foldl
    (fun (acc : Nat × Nat) e =>
      if _should_have_documentation e then
        (acc.1 + 1,
         if e.status ≠ DocumentationStatus.missing then acc.2 + 1 else acc.2)
      else acc)
    (0, 0)
  { fr with
    total_elements := counts.1
    documented_elements := counts.2
    coverage_score :=
      if counts.1 > 0 then (counts.2 : Rat) / (counts.1 : Rat) else 1 }

/-- `DocumentationChecker.check_file` (lines 24-30): check every element,
collect the issues on the file result, then compute coverage. -/
def check_file (cfg : ServerConfig) (fr : FileAnalysisResult) :
    FileAnalysisResult :=
  let processed := fr.elements.map (fun e => _check_element cfg fr.language e)
  _calculate_coverage
    { fr with
      elements := processed.map Prod.fst
      issues := fr.issues ++ processed.bind Prod.snd }

end DocumentationChecker

/-- `re.finditer(r'(\w+):', section)`: maximal word runs immediately
followed by a colon; scanning resumes after the colon. -/
def wordColonFinditerGo : Nat → List Char → List String
  | 0, _ => []
  | _, [] => []
  | fuel + 1, c :: rest =>
      if pyWord c then
        match (c :: rest).drop ((c :: rest).takeWhile pyWord).length with
        | ':' :: r2 =>
            (⟨(c :: rest).takeWhile pyWord⟩ : String) ::
              wordColonFinditerGo fuel r2
        | _ => wordColonFinditerGo fuel rest
      else wordColonFinditerGo fuel rest

def wordColonFinditer (l : List Char) : List String :=
  wordColonFinditerGo l.length l

/-- `re.finditer(r':param (\w+):', docstring)`: only the names; the match
ends at the second colon. -/
def sphinxParamNamesGo : Nat → List Char → List String
  | 0, _ => []
  | _, [] => []
  | fuel + 1, c :: rest =>
      if ":param ".data.isPrefixOf (c :: rest) then
        if (((c :: rest).drop 7).takeWhile pyWord).isEmpty then
          sphinxParamNamesGo fuel rest
        else
          match ((c :: rest).drop 7).drop
              (((c :: rest).drop 7).takeWhile pyWord).length with
          | ':' :: r2 =>
              (⟨((c :: rest).drop 7).takeWhile pyWord⟩ : String) ::
                sphinxParamNamesGo fuel r2
          | _ => sphinxParamNamesGo fuel rest
      else sphinxParamNamesGo fuel rest

def sphinxParamNames (l : List Char) : List String :=
  sphinxParamNamesGo l.length l

/-- `re.finditer(r'@param (\w+)', docstring)`: the name is the maximal word
run after the literal `@param `; the match ends with the run. -/
def javadocParamNamesGo : Nat → List Char → List String
  | 0, _ => []
  | _, [] => []
  | fuel + 1, c :: rest =>
      if "@param ".data.isPrefixOf (c :: rest) then
        if (((c :: rest).drop 7).takeWhile pyWord).isEmpty then
          javadocParamNamesGo fuel rest
        else
          (⟨((c :: rest).drop 7).takeWhile pyWord⟩ : String) ::
            javadocParamNamesGo fuel (((c :: rest).drop 7).drop
              (((c :: rest).drop 7).takeWhile pyWord).length)
      else javadocParamNamesGo fuel rest

def javadocParamNames (l : List Char) : List String :=
  javadocParamNamesGo l.length l

/-- `re.finditer(r'@param \x7b[^\x7d]*\x7d (\w+)', docstring)`: the JSDoc
parameter names. -/
def jsdocParamNamesGo : Nat → List Char → List String
  | 0, _ => []
  | _, [] => []
  | fuel + 1, c :: rest =>
      if "@param \x7b".data.isPrefixOf (c :: rest) then
        match ((c :: rest).drop 8).dropWhile (fun ch => ch ≠ '\x7d') with
        | '\x7d' :: ' ' :: r3 =>
            if (r3.takeWhile pyWord).isEmpty then jsdocParamNamesGo fuel rest
            else
              (⟨r3.takeWhile pyWord⟩ : String) ::
                jsdocParamNamesGo fuel (r3.drop (r3.takeWhile pyWord).length)
        | _ => jsdocParamNamesGo fuel rest
      else jsdocParamNamesGo fuel rest

def jsdocParamNames (l : List Char) : List String :=
  jsdocParamNamesGo l.length l

/-- The longest match of `[A-Z][a-z]+(?:[A-Z][a-z]+)*\b` starting exactly
here: backtracking prefers more groups; a stop inside a lowercase run is
followed by a word character and so never satisfies the trailing `\b`. -/
def matchCapFromGo : Nat → List Char → Option Nat
  | _, [] => none
  | 0, _ => none
  | fuel + 1, c :: rest =>
      if c.isUpper then
        if (rest.takeWhile (fun ch => ch.isLower)).length = 0 then none
        else
          match matchCapFromGo fuel
              (rest.drop (rest.takeWhile (fun ch => ch.isLower)).length) with
          | some m => some (1 + (rest.takeWhile (fun ch => ch.isLower)).length + m)
          | none =>
              match rest.drop (rest.takeWhile (fun ch => ch.isLower)).length with
              | [] => some (1 + (rest.takeWhile (fun ch => ch.isLower)).length)
              | d :: _ =>
                  if pyWord d then none
                  else some (1 + (rest.takeWhile (fun ch => ch.isLower)).length)
      else none

def matchCapFrom (l : List Char) : Option Nat :=
  matchCapFromGo l.length l

/-- `re.findall(r'\b[A-Z][a-z]+(?:[A-Z][a-z]+)*\b', s)`: scan left to
right; a match may only start where the previous character is not a word
character; scanning resumes after a match (every match is nonempty, so the
fuel initialized to the length never runs out). -/
def capWordsScanGo (prevWord : Bool) : Nat → List Char → List String
  | _, [] => []
  | 0, _ => []
  | fuel + 1, c :: rest =>
      if prevWord then capWordsScanGo (pyWord c) fuel rest
      else
        match matchCapFrom (c :: rest) with
        | some m =>
            (⟨(c :: rest).take m⟩ : String) ::
              capWordsScanGo true fuel ((c :: rest).drop m)
        | none => capWordsScanGo (pyWord c) fuel rest

/-- `re.findall` of the CapWords pattern over a whole string. -/
def capWordsFindall (s : String) : List String :=
  capWordsScanGo false s.data.length s.data

/-- Python `str.lower()` (ASCII). -/
def pyLower (s : String) : String :=
  ⟨s.data.map Char.toLower⟩

/-- `models.ProjectAnalysisResult`, restricted to the fields the embedded
code reads or writes. -/
structure ProjectAnalysisResult where
  project_path : String
  files : List FileAnalysisResult := []
  overall_coverage : Rat := 0
  total_elements : Nat := 0
  documented_elements : Nat := 0
  issues_by_severity : List (String × Nat) := []
  coverage_by_language : List (String × Rat) := []

namespace DocumentationEvaluator

/-- `DocumentationEvaluator._extract_documented_parameters` (evaluator.py
lines 444-470): the set of documented parameter names, collected from the
Google `Args:` section and the Sphinx, Javadoc and JSDoc directives, as a
first-insertion-ordered duplicate-free list. -/
def _extract_documented_parameters (docstring : Option String) : List String :=
  match docstring with
  | none => []
  | some s =>
      if s.isEmpty then []
      else
        let d1 : List String :=
          match findTagSection "Args:".data s.data with
          | some sec => (wordColonFinditer sec).foldl setAdd []
          | none => []
        let d2 := (sphinxParamNames s.data).foldl setAdd d1
        let d3 := (javadocParamNames s.data).foldl setAdd d2
        (jsdocParamNames s.data).foldl setAdd d3

/-- `DocumentationEvaluator._check_parameter_sync` (lines 273-305):
documented parameters absent from the signature give `sync_extra_param`,
signature parameters (other than `self`/`cls`) absent from the
documentation give `sync_missing_param`. -/
def _check_parameter_sync (element : CodeElement) : List DocumentationIssue :=
  let documented := _extract_documented_parameters element.docstring
  let actual := element.parameters.foldl
    (fun acc p =>
      if p.name == "self" || p.name == "cls" then acc else setAdd acc p.name)
    []
  documented.bind (fun doc_param =>
    if actual.contains doc_param then []
    else
      [{ element := element, issue_type := "sync_extra_param",
         severity := "medium",
         message := "Documented parameter '" ++ doc_param ++
           "' not found in function signature",
         suggestion := some ("Remove documentation for '" ++ doc_param ++
           "' or check function signature"),
         line_number := some element.line_number }]) ++
  actual.bind (fun actual_param =>
    if documented.contains actual_param then []
    else
      [{ element := element, issue_type := "sync_missing_param",
         severity := "medium",
         message := "Parameter '" ++ actual_param ++
           "' exists in code but not documented",
         suggestion := some ("Add documentation for parameter '" ++
           actual_param ++ "'"),
         line_number := some element.line_number }])

/-- `DocumentationEvaluator._collect_terminology` (lines 352-365): for each
documented element, every CapWords term of its doc blob is added to the
set of observed spellings of its lowercased form.  `project_terminology` is
the insertion-ordered dict of lowercased term to that set; the
`project_patterns` counter collected alongside is never read by any check
and is not modelled. -/
def _collect_terminology (terminology : List (String × List String))
    (fr : FileAnalysisResult) : List (String × List String) :=
  fr.elements.foldl
    (fun t e =>
      if pyTruthy e.docstring then
        (capWordsFindall (e.docstring.getD "")).foldl
          (fun t w =>
            dictSet t (pyLower w) (setAdd ((dictGet t (pyLower w)).getD []) w))
          t
      else t)
    terminology

/-- `DocumentationEvaluator._check_terminology_consistency` (lines
379-399).  `max(variations, key=lambda x: self.project_terminology[term_lower])`
compares the same constant key for every candidate, so it returns the first
element in the set's iteration order; the model fixes that order to first
insertion (CPython's hash order is implementation defined, and no order
makes the constant-key `max` depend on how often a variant occurs). -/
def _check_terminology_consistency
    (terminology : List (String × List String)) (element : CodeElement) :
    List DocumentationIssue :=
  terminology.bind (fun tv =>
    if tv.2.length > 1 then
      tv.2.bind (fun variation =>
        if strContains (element.docstring.getD "") variation then
          if variation ≠ tv.2.headD "" then
            [{ element := element, issue_type := "terminology_inconsistency",
               severity := "low",
               message := "Inconsistent terminology: '" ++ variation ++
                 "' vs '" ++ tv.2.headD "" ++ "'",
               suggestion := some ("Use consistent terminology: '" ++
                 tv.2.headD "" ++ "'"),
               line_number := some element.line_number }]
          else []
        else [])
    else [])

/-- `DocumentationEvaluator._check_cross_file_consistency` (lines 367-377). -/
def _check_cross_file_consistency
    (terminology : List (String × List String)) (fr : FileAnalysisResult) :
    List DocumentationIssue :=
  fr.elements.bind (fun e =>
    if pyTruthy e.docstring then _check_terminology_consistency terminology e
    else [])

/-- `DocumentationEvaluator.evaluate_project` (lines 52-64): collect the
terminology of every file, then append each file's cross-file consistency
issues to that file's result. -/
def evaluate_project (cfg : ServerConfig) (pr : ProjectAnalysisResult) :
    ProjectAnalysisResult :=
  if !cfg.analysis.evaluate_consistency then pr
  else
    let terminology := pr.files.foldl _collect_terminology []
    { pr with
      files := pr.files.map (fun fr =>
        { fr with
          issues := fr.issues ++ _check_cross_file_consistency terminology fr }) }

end DocumentationEvaluator

namespace DocumentationOrchestrator

/-- One step of the aggregation loop of
`DocumentationOrchestrator._calculate_project_metrics` (orchestrator.py
lines 177-189): running totals, the severity histogram, and the per-language
coverage score lists. -/
def metricsStep
    (acc : Nat × Nat × List (String × Nat) × List (String × List Rat))
    (fr : FileAnalysisResult) :
    Nat × Nat × List (String × Nat) × List (String × List Rat) :=
  (acc.1 + fr.total_elements,
   acc.2.1 + fr.documented_elements,
   fr.issues.foldl
     (fun d i => dictSet d i.severity ((dictGet d i.severity).getD 0 + 1))
     acc.2.2.1,
   dictSet acc.2.2.2 fr.language
     ((dictGet acc.2.2.2 fr.language).getD [] ++ [fr.coverage_score]))

/-- `DocumentationOrchestrator._calculate_project_metrics` (lines 170-205). -/
def _calculate_project_metrics (pr : ProjectAnalysisResult) :
    ProjectAnalysisResult :=
  let acc := pr.files.foldl metricsStep (0, 0, [], [])
  { pr with
    total_elements := acc.1
    documented_elements := acc.2.1
    overall_coverage :=
      if acc.1 > 0 then (acc.2.1 : Rat) / (acc.1 : Rat) else 1
    issues_by_severity := acc.2.2.1
    coverage_by_language := acc.2.2.2.map
      (fun p => (p.1, (p.2.foldl (· + ·) 0) / (p.2.length : Rat))) }

/-- `DocumentationOrchestrator.analyze_project` (lines 40-74), from the
point where the per-file results are in hand: the file discovery and
per-file analysis (`_get_files_to_analyze`, `_analyze_file`) read the file
system, so the model takes the list of per-file results they produce.  The
project metrics are computed first, the project-wide consistency pass runs
after. -/
def analyze_project (cfg : ServerConfig) (project_path : String)
    (fileResults : List FileAnalysisResult) : ProjectAnalysisResult :=
  DocumentationEvaluator.evaluate_project cfg
    (_calculate_project_metrics
      { project_path := project_path, files := fileResults })

end DocumentationOrchestrator

/-! ### The Python AST shapes `parsers/base.py` inspects.  Expressions are
modelled by their `ast.unparse` strings (type annotations, default values);
a string-constant expression statement (a docstring position) is
`exprConst`; `passStmt` stands for any other leaf statement. -/

/-- An `ast.arg`: the name and the unparsed annotation, if any. -/
structure AstArg where
  arg : String
  ann : Option String := none
deriving DecidableEq, Repr

/-- The statements of an `ast` tree that the parser distinguishes. -/
inductive Stmt where
  | functionDef (name : String) (lineno : Nat) (args : List AstArg)
      (defaults : List String) (returns : Option String) (body : List Stmt)
  | classDef (name : String) (lineno : Nat) (end_lineno : Option Nat)
      (body : List Stmt)
  | exprConst (s : String)
  | passStmt

/-- An `ast.Module`. -/
structure Module where
  body : List Stmt

/-- The child statements `ast.walk` descends into. -/
def stmtChildren : Stmt → List Stmt
  | .functionDef _ _ _ _ _ body => body
  | .classDef _ _ _ body => body
  | _ => []

mutual

/-- One plus the number of statements below (used as breadth-first-search
fuel). -/
def stmtWeight : Stmt → Nat
  | .functionDef _ _ _ _ _ body => 1 + stmtWeightList body
  | .classDef _ _ _ body => 1 + stmtWeightList body
  | .exprConst _ => 1
  | .passStmt => 1

/-- Total weight of a statement list. -/
def stmtWeightList : List Stmt → Nat
  | [] => 0
  | s :: rest => stmtWeight s + stmtWeightList rest

end

/-- `ast.walk` (breadth first) restricted to statements: each step yields
the head of the queue and enqueues its children.  Each step removes exactly
one of the remaining statements, so fuel equal to the total weight never
runs out.  (The expression and argument nodes `ast.walk` also yields match
neither `isinstance` test in `parse_file` and are omitted.) -/
def bfsGo : Nat → List Stmt → List Stmt
  | 0, _ => []
  | _, [] => []
  | fuel + 1, s :: queue => s :: bfsGo fuel (queue ++ stmtChildren s)

/-- `ast.walk` over a module body. -/
def walkStmts (body : List Stmt) : List Stmt :=
  bfsGo (stmtWeightList body) body

namespace PythonParser

/-- `PythonParser._get_visibility` (base.py lines 310-319). -/
def _get_visibility (name : String) : String :=
  if pyStartsWith name "__" && pyEndsWith name "__" then "special"
  else if pyStartsWith name "__" then "private"
  else if pyStartsWith name "_" then "protected"
  else "public"

/-- `hasattr(node, 'parent')`: the nodes produced by `ast.parse` carry no
`parent` attribute and the parser never assigns one, so this is always
False. -/
def hasattrParent (_node : Stmt) : Bool :=
  false

/-- `PythonParser._is_method` (lines 297-301): `hasattr(node, 'parent') and
isinstance(node.parent, ast.ClassDef)`; the conjunction short-circuits on
the always-false first conjunct. -/
def _is_method (node : Stmt) : Bool :=
  hasattrParent node

/-- `PythonParser._extract_parameters` (lines 192-225).  The `type_hint`
field carries the unparsed annotation (`_get_type_annotation` is
`ast.unparse`); the defaults align with the last `len(defaults)`
parameters. -/
def _extract_parameters (node : Stmt) : List Parameter :=
  match node with
  | .functionDef _ _ args defaults _ _ =>
      let args' :=
        match args with
        | first :: restArgs =>
            if first.arg == "self" && _is_method node then restArgs else args
        | [] => args
      let parameters := args'.map (fun a =>
        ({ name := a.arg, type_hint := a.ann } : Parameter))
      parameters.mapIdx (fun j p =>
        if parameters.length ≤ j + defaults.length then
          match defaults.get? (j + defaults.length - parameters.length) with
          | some dv => { p with default_value := some dv, is_required := false }
          | none => p
        else p)
  | _ => []

/-- Python `ast.get_docstring` (stdlib): the string constant standing first
in the body, if any.  Its `inspect.cleandoc` whitespace normalization is
not modelled; no claim depends on docstring whitespace. -/
def ast_get_docstring (body : List Stmt) : Option String :=
  match body with
  | .exprConst s :: _ => some s
  | _ => none

/-- `BaseParser._clean_docstring` (lines 41-65): strip, then remove the
minimum indentation of the non-first non-blank lines from every later line
longer than it. -/
def _clean_docstring (docstring : String) : String :=
  if docstring.isEmpty then ""
  else
    let d := pyStrip docstring
    let lines := d.splitOn "\n"
    if lines.length > 1 then
      let indents := lines.tail.filterMap (fun line =>
        if (pyStrip line).isEmpty then none
        else some (line.length - (line.data.dropWhile pySpace).length))
      match indents.minimum? with
      | some m =>
          String.intercalate "\n"
            (lines.headD "" ::
              lines.tail.map (fun line => if line.length > m then line.drop m else line))
      | none => d
    else d

/-- `PythonParser.extract_docstring` (lines 160-168), on a node's body. -/
def extract_docstring (body : List Stmt) : Option String :=
  match body with
  | .exprConst s :: _ => some (_clean_docstring s)
  | _ => none

/-- `PythonParser._parse_function` (lines 227-265).  The `try` never takes
its `except` branch in the model (`ast.unparse` is already folded into the
input), so the element is always produced. -/
def _parse_function (node : Stmt) (file_path : String) : Option CodeElement :=
  match node with
  | .functionDef name lineno _ _ rets body =>
      let element_type : CodeElementType :=
        if _is_method node then .method else .function
      let parameters := _extract_parameters node
      let return_info : Option ReturnInfo :=
        match rets with
        | some r => some { type_hint := some r }
        | none => none
      let docTriple : Option String × Option String × Option String :=
        match ast_get_docstring body with
        | some ds =>
            if ds.isEmpty then (none, none, none)
            else
              let lines := (pyStrip ds).splitOn "\n"
              (some ds,
               some (lines.headD ""),
               some (if lines.length > 1 then
                  pyStrip (String.intercalate "\n" lines.tail)
                else ""))
        | none => (none, none, none)
      some (.mk name element_type file_path lineno none
        docTriple.1 docTriple.2.1 docTriple.2.2 parameters return_info
        [] [] [] [] .missing [] "public")
  | _ => none

/-- The section header patterns of `BaseParser._parse_docstring_sections`
(lines 77-85), matched case-insensitively against a stripped line. -/
def sectionNameOf (line_stripped : String) : Option String :=
  let ls := pyLower line_stripped
  if ls == "args:" || ls == "arguments:" || ls == "parameters:" then some "args"
  else if ls == "returns:" || ls == "return:" then some "returns"
  else if ls == "raises:" || ls == "raise:" || ls == "exceptions:" ||
      ls == "exception:" then some "raises"
  else if ls == "yields:" || ls == "yield:" then some "yields"
  else if ls == "examples:" || ls == "example:" then some "examples"
  else if ls == "note:" || ls == "notes:" then some "note"
  else if ls == "warning:" || ls == "warnings:" then some "warning"
  else none

/-- `BaseParser._parse_docstring_sections` (lines 67-112). -/
def _parse_docstring_sections (docstring : String) : List (String × String) :=
  if docstring.isEmpty then []
  else
    let step := fun (acc : List (String × String) × String × List String) line =>
      match sectionNameOf (pyStrip line) with
      | some sec =>
          (if acc.2.2 ≠ [] then
            dictSet acc.1 acc.2.1 (pyStrip (String.intercalate "\n" acc.2.2))
          else acc.1, sec, [])
      | none => (acc.1, acc.2.1, acc.2.2 ++ [line])
    let fin := (docstring.splitOn "\n").foldl step ([], "summary", [])
    if fin.2.2 ≠ [] then
      dictSet fin.1 fin.2.1 (pyStrip (String.intercalate "\n" fin.2.2))
    else fin.1

/-- `re.match(r'^(\w+):\s*(.*)', line)` on a single stripped line. -/
def lineParamMatch (l : String) : Option (String × String) :=
  if (l.data.takeWhile pyWord).isEmpty then none
  else
    match l.data.drop (l.data.takeWhile pyWord).length with
    | ':' :: rest => some (⟨l.data.takeWhile pyWord⟩, ⟨rest.dropWhile pySpace⟩)
    | _ => none

/-- `BaseParser._parse_parameter_descriptions` (lines 347-379): collect the
final description written for each parameter name, then update the matching
parameters. -/
def _parse_parameter_descriptions (args_section : String)
    (parameters : List Parameter) : List Parameter :=
  let step := fun (acc : List (String × String) × Option String × List String)
      rawLine =>
    let line := pyStrip rawLine
    if line.isEmpty then acc
    else
      match lineParamMatch line with
      | some (name, g2) =>
          (match acc.2.1 with
           | some cur =>
               if acc.2.2 ≠ [] then
                 dictSet acc.1 cur (pyStrip (String.intercalate " " acc.2.2))
               else acc.1
           | none => acc.1,
           some name,
           if g2.isEmpty then [] else [g2])
      | none =>
          match acc.2.1 with
          | some _ => (acc.1, acc.2.1, acc.2.2 ++ [line])
          | none => acc
  let fin := (args_section.splitOn "\n").foldl step ([], none, [])
  let descs :=
    match fin.2.1 with
    | some cur =>
        if fin.2.2 ≠ [] then
          dictSet fin.1 cur (pyStrip (String.intercalate " " fin.2.2))
        else fin.1
    | none => fin.1
  parameters.map (fun p =>
    match dictGet descs p.name with
    | some d => { p with description := some d }
    | none => p)

/-- `re.match(r'^(\w+(?:\.\w+)*):\s*(.*)', line)` on a stripped line. -/
def lineExcMatch (l : String) : Option (String × String) :=
  if (takeDotted l.data).isEmpty then none
  else
    match l.data.drop (takeDotted l.data).length with
    | ':' :: rest => some (⟨takeDotted l.data⟩, ⟨rest.dropWhile pySpace⟩)
    | _ => none

/-- `BaseParser._parse_exceptions` (lines 381-418). -/
def _parse_exceptions (raises_section : String) : List ExceptionInfo :=
  let step := fun (acc : List ExceptionInfo × Option String × List String)
      rawLine =>
    let line := pyStrip rawLine
    if line.isEmpty then acc
    else
      match lineExcMatch line with
      | some (name, g2) =>
          (match acc.2.1 with
           | some cur =>
               if acc.2.2 ≠ [] then
                 acc.1 ++ [{ exception_type := cur,
                             description := some
                               (pyStrip (String.intercalate " " acc.2.2)) }]
               else acc.1
           | none => acc.1,
           some name,
           if g2.isEmpty then [] else [g2])
      | none =>
          match acc.2.1 with
          | some _ => (acc.1, acc.2.1, acc.2.2 ++ [line])
          | none => acc
  let fin := (raises_section.splitOn "\n").foldl step ([], none, [])
  match fin.2.1 with
  | some cur =>
      if fin.2.2 ≠ [] then
        fin.1 ++ [{ exception_type := cur,
                    description := some
                      (pyStrip (String.intercalate " " fin.2.2)) }]
      else fin.1
  | none => fin.1

/-- `PythonParser._parse_docstring_info` (lines 321-345): update summary,
description, parameter descriptions, return description and exceptions from
the docstring sections. -/
def _parse_docstring_info (e : CodeElement) : CodeElement :=
  match e with
  | .mk n t f l el d s de p r ex m c fu st is v =>
      match d with
      | none => .mk n t f l el d s de p r ex m c fu st is v
      | some ds =>
          if ds.isEmpty then .mk n t f l el d s de p r ex m c fu st is v
          else
            let sections := _parse_docstring_sections ds
            let sde : Option String × Option String :=
              match dictGet sections "summary" with
              | some sum =>
                  let lines := sum.splitOn "\n"
                  (some (pyStrip (lines.headD "")),
                   if lines.length > 1 then
                     some (pyStrip (String.intercalate "\n" lines.tail))
                   else de)
              | none => (s, de)
            let p' :=
              match dictGet sections "args" with
              | some argsSec =>
                  if p ≠ [] then _parse_parameter_descriptions argsSec p else p
              | none => p
            let r' :=
              match dictGet sections "returns" with
              | some retSec =>
                  match r with
                  | some ri => some { ri with description := some (pyStrip retSec) }
                  | none => r
              | none => r
            let ex' :=
              match dictGet sections "raises" with
              | some raisesSec => _parse_exceptions raisesSec
              | none => ex
            .mk n t f l el d sde.1 sde.2 p' r' ex' m c fu st is v

/-- `PythonParser._parse_class` (lines 267-295): the class element with its
name-based visibility and directly nested methods, refined by the docstring
information when a docstring is present. -/
def _parse_class (node : Stmt) (file_path : String) : Option CodeElement :=
  match node with
  | .classDef name lineno end_lineno body =>
      let element : CodeElement := .mk name .class_ file_path lineno end_lineno
        (extract_docstring body) none none [] none []
        (body.filterMap (fun item =>
          match item with
          | .functionDef _ _ _ _ _ _ => _parse_function item file_path
          | _ => none))
        [] [] .missing [] (_get_visibility name)
      some (if pyTruthy element.docstring then _parse_docstring_info element
        else element)
  | _ => none

/-- `PythonParser.parse_file` (lines 121-158), from the outcome of
`open`+`ast.parse` (the `Except` input): a parse failure takes the `except`
branch and yields no elements; otherwise the module element (holding every
walked function and class) is prepended to the per-node elements in
`ast.walk` order. -/
def parse_file (parsed : Except String Module) (stem : String)
    (file_path : String) : List CodeElement :=
  match parsed with
  | .error _ => []
  | .ok tree =>
      let walked := walkStmts tree.body
      let funcs := walked.filterMap (fun n =>
        match n with
        | .functionDef _ _ _ _ _ _ => _parse_function n file_path
        | _ => none)
      let classes := walked.filterMap (fun n =>
        match n with
        | .classDef _ _ _ _ => _parse_class n file_path
        | _ => none)
      let elements := walked.filterMap (fun n =>
        match n with
        | .functionDef _ _ _ _ _ _ => _parse_function n file_path
        | .classDef _ _ _ _ => _parse_class n file_path
        | _ => none)
      CodeElement.mk stem .module file_path 1 none (extract_docstring tree.body)
        none none [] none [] [] classes funcs .missing [] "public" :: elements

end PythonParser

end Documenter

namespace Documenter

open DocumentationChecker

/-- Helper: the severity counts used by `_determine_status`. -/
def sevCount (issues : List DocumentationIssue) (s : String) : Nat :=
  (issues.filter (fun i => i.severity == s)).length

theorem sevCount_eq_countP (issues : List DocumentationIssue) (s : String) :
    sevCount issues s = issues.countP (fun i => i.severity == s) := by
  simp [sevCount, List.countP_eq_length_filter]

/-- If every issue has one of the four severities and the medium and low
counts are zero and there is no critical or high issue, the list is empty. -/
theorem issues_nil_of_counts_zero (issues : List DocumentationIssue)
    (h : ∀ i ∈ issues, i.severity = "critical" ∨ i.severity = "high" ∨
      i.severity = "medium" ∨ i.severity = "low")
    (hc : sevCount issues "critical" = 0) (hh : sevCount issues "high" = 0)
    (hm : sevCount issues "medium" = 0) (hl : sevCount issues "low" = 0) :
    issues = [] := by
  cases issues with
  | nil => rfl
  | cons i rest =>
      exfalso
      have hi := h i (by simp)
      rcases hi with hi | hi | hi | hi
      · have : 0 < sevCount (i :: rest) "critical" := by
          simp [sevCount, List.filter_cons, hi]
        omega
      · have : 0 < sevCount (i :: rest) "high" := by
          simp [sevCount, List.filter_cons, hi]
        omega
      · have : 0 < sevCount (i :: rest) "medium" := by
          simp [sevCount, List.filter_cons, hi]
        omega
      · have : 0 < sevCount (i :: rest) "low" := by
          simp [sevCount, List.filter_cons, hi]
        omega

/-- C1: the status computed after the checker stages follows the first-match
precedence over the element's accumulated issues: no doc blob → Missing; any
critical or high issue → Incomplete; more than two medium → Incomplete; one or
two medium, or more than three low → Outdated; one to three low with zero
medium → Good; zero issues → Excellent.  The hypothesis records that the
checker stages only emit the four severities. -/
theorem c1_status_precedence (e : CodeElement) (issues : List DocumentationIssue)
    (h : ∀ i ∈ issues, i.severity = "critical" ∨ i.severity = "high" ∨
      i.severity = "medium" ∨ i.severity = "low") :
    _determine_status e issues =
      if ¬ pyTruthy e.docstring then .missing
      else if 0 < sevCount issues "critical" ∨ 0 < sevCount issues "high" then
        .incomplete
      else if 2 < sevCount issues "medium" then .incomplete
      else if 0 < sevCount issues "medium" ∨ 3 < sevCount issues "low" then
        .outdated
      else if 0 < issues.length then .good
      else .excellent := by
  have hL : _determine_status e issues =
      if !(pyTruthy e.docstring) then .missing
      else if 0 < sevCount issues "critical" then .incomplete
      else if 0 < sevCount issues "high" then .incomplete
      else if 2 < sevCount issues "medium" then .incomplete
      else if 0 < sevCount issues "medium" ∨ 3 < sevCount issues "low" then
        .outdated
      else if 0 < sevCount issues "low" then .good
      else .excellent := by
    unfold _determine_status sevCount
    rfl
  rw [hL]
  have hne : 0 < issues.length →
      0 < sevCount issues "critical" ∨ 0 < sevCount issues "high" ∨
      0 < sevCount issues "medium" ∨ 0 < sevCount issues "low" := by
    intro hlen
    by_contra hall
    push_neg at hall
    have : issues = [] := by
      refine issues_nil_of_counts_zero issues h ?_ ?_ ?_ ?_ <;> omega
    rw [this] at hlen
    simp at hlen
  have hlow : 0 < sevCount issues "low" → 0 < issues.length := by
    intro hl
    cases issues with
    | nil => simp [sevCount] at hl
    | cons a l => simp
  by_cases hd : pyTruthy e.docstring
  · have h1 : ¬ ((!pyTruthy e.docstring) = true) := by simp [hd]
    have h2 : ¬ (¬ pyTruthy e.docstring = true) := by simp [hd]
    rw [if_neg h1, if_neg h2]
    by_cases hc : 0 < sevCount issues "critical"
    · rw [if_pos hc, if_pos (Or.inl hc)]
    · rw [if_neg hc]
      by_cases hh : 0 < sevCount issues "high"
      · rw [if_pos hh, if_pos (Or.inr hh)]
      · have h3 : ¬ (0 < sevCount issues "critical" ∨ 0 < sevCount issues "high") := by
          tauto
        rw [if_neg hh, if_neg h3]
        by_cases hm2 : 2 < sevCount issues "medium"
        · rw [if_pos hm2, if_pos hm2]
        · rw [if_neg hm2, if_neg hm2]
          by_cases hmo : 0 < sevCount issues "medium" ∨ 3 < sevCount issues "low"
          · rw [if_pos hmo, if_pos hmo]
          · rw [if_neg hmo, if_neg hmo]
            push_neg at hmo
            by_cases hl : 0 < sevCount issues "low"
            · rw [if_pos hl, if_pos (hlow hl)]
            · rw [if_neg hl]
              have hlen : ¬ 0 < issues.length := by
                intro hlen
                rcases hne hlen with hx | hx | hx | hx <;> omega
              rw [if_neg hlen]
  · have h1 : ((!pyTruthy e.docstring) = true) := by simp [hd]
    have h2 : (¬ pyTruthy e.docstring = true) := by simp [hd]
    rw [if_pos h1, if_pos h2]

/-- A sample element with a docstring, used by the C1 witness. -/
def c1SampleElement : CodeElement :=
  .mk "f" .function "a.py" 1 none (some "Does a thing.") none none [] none []
    [] [] [] .missing [] "public"

/-- A sample medium-severity issue, used by the C1 witness. -/
def c1SampleIssue : DocumentationIssue :=
  { element := c1SampleElement, issue_type := "missing_summary",
    severity := "medium", message := "m" }

/-- Witness for C1: one medium issue on a documented element yields Outdated. -/
theorem c1_status_precedence_witness :
    _determine_status c1SampleElement [c1SampleIssue] = .outdated := by
  have h := c1_status_precedence c1SampleElement [c1SampleIssue]
    (by intro i hi; simp at hi; subst hi; simp [c1SampleIssue])
  rw [h]
  decide

/-- The counting loop of `_calculate_coverage` computes the number of
should-document elements and the number of those whose status is not
Missing. -/
theorem coverage_foldl (l : List CodeElement) (a b : Nat) :
    l.foldl
      (fun (acc : Nat × Nat) e =>
        if _should_have_documentation e then
          (acc.1 + 1,
           if e.status ≠ DocumentationStatus.missing then acc.2 + 1 else acc.2)
        else acc)
      (a, b) =
    (a + l.countP (fun e => _should_have_documentation e),
     b + l.countP (fun e => _should_have_documentation e &&
        (e.status ≠ DocumentationStatus.missing))) := by
  induction l generalizing a b with
  | nil => simp
  | cons e t ih =>
      simp only [List.foldl_cons, List.countP_cons]
      by_cases hs : _should_have_documentation e
      · by_cases hm : e.status ≠ DocumentationStatus.missing
        · rw [if_pos hs, if_pos hm, ih]
          simp [hs, hm]
          omega
        · rw [if_pos hs, if_neg hm, ih]
          simp [hs, hm]
          omega
      · rw [if_neg hs, ih]
        simp [hs]

/-- C3: a file's coverage score is the number of documented should-document
elements divided by the number of should-document elements, and exactly 1
when there is nothing to document. -/
theorem c3_coverage_ratio (fr : FileAnalysisResult) :
    (_calculate_coverage fr).coverage_score =
      if fr.elements.countP (fun e => _should_have_documentation e) = 0 then 1
      else
        ((fr.elements.countP (fun e => _should_have_documentation e &&
            (e.status ≠ DocumentationStatus.missing)) : Rat) /
         (fr.elements.countP (fun e => _should_have_documentation e) : Rat)) := by
  unfold _calculate_coverage
  rw [coverage_foldl fr.elements 0 0]
  simp only [Nat.zero_add]
  by_cases h : fr.elements.countP (fun e => _should_have_documentation e) = 0
  · rw [if_neg (by omega), if_pos h]
  · rw [if_pos (by omega), if_neg h]

/-- C4: a private element never receives a presence issue, and checking it
with presence checking enabled gives exactly the same issues and status as
with presence checking disabled. -/
theorem c4_private_presence (cfg : ServerConfig) (language : String)
    (e : CodeElement) (h : e.visibility = "private") :
    _check_presence cfg.analysis e = [] ∧
    _check_element cfg language e =
      _check_element
        { cfg with analysis := { cfg.analysis with check_presence := false } }
        language e := by
  have hshould : _should_have_documentation e = false := by
    simp [_should_have_documentation, h]
  have hp : _check_presence cfg.analysis e = [] := by
    unfold _check_presence
    rw [hshould]
    simp
  refine ⟨hp, ?_⟩
  unfold _check_element
  rw [hp]
  have hp2 : _check_presence
      ({ cfg with analysis := { cfg.analysis with check_presence := false } } :
        ServerConfig).analysis e = [] := by
    unfold _check_presence
    rw [hshould]
    simp
  rw [hp2]
  have hf : _check_format
      { cfg with analysis := { cfg.analysis with check_presence := false } }
      e language = _check_format cfg e language := rfl
  rw [hf]
  simp

/-- The C2 element: parameters exactly `a` and `b`, both documented in
Google style. -/
def c2SampleElement : CodeElement :=
  .mk "f" .function "a.py" 1 none (some "Args:\n    a: x\n    b: y") none none
    [{ name := "a" }, { name := "b" }] none [] [] [] [] .missing [] "public"

/-- C2 (code evaluation): on an element with parameters `{a, b}` and the
Google-style doc blob `Args:\n    a: x\n    b: y`, the `Args:` section
regex stops at the lookahead `\n\s*\w+:` matching the second parameter
line, so only `a` is extracted; the completeness check then raises
`missing_parameter_doc` for `b` and the synchronization check raises
`sync_missing_param` for `b`. -/
theorem c2_roundtrip_eval :
    DocumentationChecker._extract_documented_parameters
      (some "Args:\n    a: x\n    b: y") = [("a", "x")] ∧
    (DocumentationChecker._check_parameters_documentation c2SampleElement).map
      (fun i => (i.issue_type, i.message)) =
      [("missing_parameter_doc", "Parameter 'b' is not documented")] ∧
    (DocumentationEvaluator._check_parameter_sync c2SampleElement).map
      (fun i => (i.issue_type, i.message)) =
      [("sync_missing_param", "Parameter 'b' exists in code but not documented")] := by
  refine ⟨rfl, rfl, rfl⟩

/-- A documented public function element with the given name and doc blob,
used by the C7 and C8 inputs. -/
def sampleDocElement (nm doc : String) : CodeElement :=
  .mk nm .function "a.py" 1 none (some doc) none none [] none [] [] [] []
    .missing [] "public"

/-- C7 input: one file where the spelling `UsErId` occurs once (collected
first), one file where `UserId` occurs three times. -/
def c7FileA : FileAnalysisResult :=
  { file_path := "f1.py", language := "python",
    elements := [sampleDocElement "g1" "UsErId here"] }

/-- Second C7 input file (the majority spelling `UserId`). -/
def c7FileB : FileAnalysisResult :=
  { file_path := "f2.py", language := "python",
    elements := [sampleDocElement "g2" "UserId one",
                 sampleDocElement "g3" "UserId two",
                 sampleDocElement "g4" "UserId three"] }

/-- C7 (code evaluation): with `UsErId` observed once and first, and
`UserId` observed three times, the collected terminology holds both
spellings; the constant-key `max` picks the first-collected `UsErId`, so the
majority spelling `UserId` is flagged with a low issue naming `UsErId`, and
the minority spelling is never flagged — the opposite of the claim. -/
theorem c7_constant_key_eval :
    ([c7FileA, c7FileB].foldl DocumentationEvaluator._collect_terminology []) =
      [("userid", ["UsErId", "UserId"])] ∧
    (([c7FileA, c7FileB].bind (fun fr => fr.elements)).bind
      (fun e => capWordsFindall (e.docstring.getD ""))).count "UserId" = 3 ∧
    (([c7FileA, c7FileB].bind (fun fr => fr.elements)).bind
      (fun e => capWordsFindall (e.docstring.getD ""))).count "UsErId" = 1 ∧
    (DocumentationEvaluator._check_terminology_consistency
      [("userid", ["UsErId", "UserId"])]
      (sampleDocElement "g2" "UserId one")).map (fun i => (i.severity, i.message)) =
      [("low", "Inconsistent terminology: 'UserId' vs 'UsErId'")] ∧
    DocumentationEvaluator._check_terminology_consistency
      [("userid", ["UsErId", "UserId"])]
      (sampleDocElement "g1" "UsErId here") = [] := by
  refine ⟨rfl, rfl, rfl, rfl, rfl⟩

/-- `dictGet` after `dictSet`: the set key reads back the new value, any
other key is unchanged. -/
theorem dictGet_dictSet {α : Type} (d : List (String × α)) (k k' : String)
    (v : α) :
    dictGet (dictSet d k v) k' = if k' = k then some v else dictGet d k' := by
  induction d with
  | nil =>
      by_cases h : k' = k
      · subst h
        simp [dictSet, dictGet]
      · simp [dictSet, dictGet, h, Ne.symm h]
  | cons p rest ih =>
      obtain ⟨k0, v0⟩ := p
      by_cases h0 : k0 = k
      · subst h0
        by_cases h : k' = k0
        · subst h
          simp [dictSet, dictGet]
        · simp [dictSet, dictGet, h, Ne.symm h]
      · by_cases h : k' = k
        · subst h
          simp [dictSet, dictGet, h0, ih, Ne.symm h0]
        · simp [dictSet, dictGet, h0, ih, h]

/-- The histogram loop over one file's issues adds that file's per-severity
counts. -/
theorem histoFold (issues : List DocumentationIssue)
    (d : List (String × Nat)) (sev : String) :
    (dictGet (issues.foldl
      (fun d i => dictSet d i.severity ((dictGet d i.severity).getD 0 + 1)) d)
      sev).getD 0 =
    (dictGet d sev).getD 0 + issues.countP (fun i => i.severity == sev) := by
  induction issues generalizing d with
  | nil => simp
  | cons i rest ih =>
      simp only [List.foldl_cons, List.countP_cons]
      rw [ih, dictGet_dictSet]
      by_cases hs : sev = i.severity
      · rw [if_pos hs, hs]
        simp
        omega
      · rw [if_neg hs]
        have : (i.severity == sev) = false := by
          simp
          exact fun hh => hs hh.symm
        rw [this]
        simp

/-- The aggregation loop's histogram component counts the issues of all
files, on top of its starting dict. -/
theorem metricsFold_histo (files : List FileAnalysisResult) (t d : Nat)
    (h : List (String × Nat)) (cl : List (String × List Rat)) (sev : String) :
    (dictGet ((files.foldl DocumentationOrchestrator.metricsStep
        (t, d, h, cl)).2.2.1) sev).getD 0 =
      (dictGet h sev).getD 0 +
        (files.bind (fun fr => fr.issues)).countP (fun i => i.severity == sev) := by
  induction files generalizing t d h cl with
  | nil => simp
  | cons fr rest ih =>
      simp only [List.foldl_cons]
      rw [show DocumentationOrchestrator.metricsStep (t, d, h, cl) fr =
        (t + fr.total_elements, d + fr.documented_elements,
         fr.issues.foldl
           (fun d i => dictSet d i.severity ((dictGet d i.severity).getD 0 + 1)) h,
         dictSet cl fr.language
           ((dictGet cl fr.language).getD [] ++ [fr.coverage_score])) from rfl]
      rw [ih, histoFold]
      have hb : ((fr :: rest).bind fun fr => fr.issues) =
          fr.issues ++ (rest.bind fun fr => fr.issues) := rfl
      rw [hb, List.countP_append]
      omega

/-- C8 (amended): the project severity histogram counts exactly the issues
present on the per-file results as they stand when aggregation runs — i.e.
before the project-wide consistency pass appends its issues. -/
theorem c8_amended_histogram (cfg : ServerConfig) (pp : String)
    (frs : List FileAnalysisResult) (sev : String) :
    (dictGet (DocumentationOrchestrator.analyze_project cfg pp frs).issues_by_severity
      sev).getD 0 =
      (frs.bind (fun fr => fr.issues)).countP (fun i => i.severity == sev) := by
  unfold DocumentationOrchestrator.analyze_project
    DocumentationEvaluator.evaluate_project
    DocumentationOrchestrator._calculate_project_metrics
  by_cases hc : cfg.analysis.evaluate_consistency
  · simp only [hc, Bool.not_true]
    have := metricsFold_histo frs 0 0 [] [] sev
    simpa [dictGet] using this
  · simp only [Bool.not_eq_true] at hc
    simp only [hc, Bool.not_false]
    have := metricsFold_histo frs 0 0 [] [] sev
    simpa [dictGet] using this

/-- C8 (counterexample): two files with no issues of their own whose doc
blobs disagree on a term's capitalization; the consistency pass appends one
low issue to the final file results but the histogram, computed before that
pass, still reports zero low issues. -/
theorem c8_histogram_misses_consistency :
    ((DocumentationOrchestrator.analyze_project ⟨[], {}⟩ "proj"
        [c7FileA, { c7FileB with elements := [sampleDocElement "g2" "UserId one"] }]).files.bind
      (fun fr => fr.issues)).countP (fun i => i.severity == "low") = 1 ∧
    (dictGet (DocumentationOrchestrator.analyze_project ⟨[], {}⟩ "proj"
        [c7FileA, { c7FileB with elements := [sampleDocElement "g2" "UserId one"] }]).issues_by_severity
      "low").getD 0 = 0 := by
  refine ⟨rfl, rfl⟩

open PythonParser

/-- Every statement weighs at least one. -/
theorem stmtWeight_pos (s : Stmt) : 1 ≤ stmtWeight s := by
  cases s <;> simp [stmtWeight] <;> omega

/-- A statement's children weigh strictly less than the statement. -/
theorem childrenWeight_lt (s : Stmt) :
    stmtWeightList (stmtChildren s) < stmtWeight s := by
  cases s <;> simp [stmtChildren, stmtWeight, stmtWeightList]

theorem stmtWeightList_append (l1 l2 : List Stmt) :
    stmtWeightList (l1 ++ l2) = stmtWeightList l1 + stmtWeightList l2 := by
  induction l1 with
  | nil => simp [stmtWeightList]
  | cons s rest ih => simp [stmtWeightList, ih]; omega

/-- With fuel at least the queue's weight, every queued statement is
yielded by the breadth-first walk. -/
theorem mem_bfsGo_of_mem (fuel : Nat) (queue : List Stmt) (s : Stmt)
    (hw : stmtWeightList queue ≤ fuel) (hs : s ∈ queue) :
    s ∈ bfsGo fuel queue := by
  induction fuel generalizing queue with
  | zero =>
      cases queue with
      | nil => simp at hs
      | cons q rest =>
          exfalso
          have h1 := stmtWeight_pos q
          simp [stmtWeightList] at hw
          omega
  | succ fuel ih =>
      cases queue with
      | nil => simp at hs
      | cons q rest =>
          rw [show bfsGo (fuel + 1) (q :: rest) =
            q :: bfsGo fuel (rest ++ stmtChildren q) from rfl]
          cases hs with
          | head => exact List.Mem.head _
          | tail _ hs' =>
              refine List.Mem.tail _ (ih (rest ++ stmtChildren q) ?_
                (List.mem_append_left _ hs'))
              rw [stmtWeightList_append]
              have h1 := childrenWeight_lt q
              simp [stmtWeightList] at hw
              omega

/-- With fuel at least the queue's weight, the walk is closed under
children: every child of a yielded statement is yielded too. -/
theorem mem_bfsGo_child (fuel : Nat) (queue : List Stmt) (s c : Stmt)
    (hc : c ∈ stmtChildren s) (hw : stmtWeightList queue ≤ fuel)
    (hs : s ∈ bfsGo fuel queue) :
    c ∈ bfsGo fuel queue := by
  induction fuel generalizing queue with
  | zero => simp [bfsGo] at hs
  | succ fuel ih =>
      cases queue with
      | nil => simp [bfsGo] at hs
      | cons q rest =>
          rw [show bfsGo (fuel + 1) (q :: rest) =
            q :: bfsGo fuel (rest ++ stmtChildren q) from rfl] at hs ⊢
          have hw' : stmtWeightList (rest ++ stmtChildren q) ≤ fuel := by
            rw [stmtWeightList_append]
            have h1 := childrenWeight_lt q
            simp [stmtWeightList] at hw
            omega
          cases hs with
          | head =>
              exact List.Mem.tail _ (mem_bfsGo_of_mem fuel _ c hw'
                (List.mem_append_right _ hc))
          | tail _ hs' =>
              exact List.Mem.tail _ (ih _ hw' hs')

/-- `_parse_docstring_info` never touches the `visibility` field. -/
theorem visibility_parse_docstring_info (e : CodeElement) :
    (_parse_docstring_info e).visibility = e.visibility := by
  cases e with
  | mk n t f l el d s de p r ex m c fu st is v =>
      unfold _parse_docstring_info
      cases d with
      | none => rfl
      | some ds =>
          by_cases h : ds.isEmpty <;> simp [h, CodeElement.visibility]

/-- `_parse_docstring_info` never touches the `methods` field. -/
theorem methods_parse_docstring_info (e : CodeElement) :
    (_parse_docstring_info e).methods = e.methods := by
  cases e with
  | mk n t f l el d s de p r ex m c fu st is v =>
      unfold _parse_docstring_info
      cases d with
      | none => rfl
      | some ds =>
          by_cases h : ds.isEmpty <;> simp [h, CodeElement.methods]

/-- C5 (counterexample): the extractor gives a function named `__secret`
the default visibility `public`, although the name-based rule classifies
that name as `private`. -/
theorem c5_function_visibility_counterexample :
    (_parse_function (.functionDef "__secret" 1 [] [] none []) "a.py").map
      CodeElement.visibility = some "public" ∧
    _get_visibility "__secret" = "private" ∧
    ("public" : String) ≠ "private" := by
  refine ⟨rfl, rfl, by decide⟩

/-- C5 (amended): only class elements get their visibility classified from
the name (`_get_visibility`: dunder-wrapped → special, leading `__` →
private, leading `_` → protected, else public); function and method
elements always carry the default visibility `public`. -/
theorem c5_amended_visibility :
    (∀ (name : String) (lineno : Nat) (el : Option Nat) (body : List Stmt)
      (fp : String),
      (_parse_class (.classDef name lineno el body) fp).map
        CodeElement.visibility = some (_get_visibility name)) ∧
    (∀ (name : String) (lineno : Nat) (args : List AstArg)
      (defaults : List String) (rets : Option String) (body : List Stmt)
      (fp : String),
      (_parse_function (.functionDef name lineno args defaults rets body) fp).map
        CodeElement.visibility = some "public") := by
  constructor
  · intro name lineno el body fp
    have hpc : _parse_class (.classDef name lineno el body) fp =
        some (if pyTruthy (CodeElement.mk name .class_ fp lineno el
            (extract_docstring body) none none [] none []
            (body.filterMap (fun item =>
              match item with
              | .functionDef _ _ _ _ _ _ => _parse_function item fp
              | _ => none))
            [] [] .missing [] (_get_visibility name)).docstring then
          _parse_docstring_info (CodeElement.mk name .class_ fp lineno el
            (extract_docstring body) none none [] none []
            (body.filterMap (fun item =>
              match item with
              | .functionDef _ _ _ _ _ _ => _parse_function item fp
              | _ => none))
            [] [] .missing [] (_get_visibility name))
        else CodeElement.mk name .class_ fp lineno el
            (extract_docstring body) none none [] none []
            (body.filterMap (fun item =>
              match item with
              | .functionDef _ _ _ _ _ _ => _parse_function item fp
              | _ => none))
            [] [] .missing [] (_get_visibility name)) := rfl
    rw [hpc]
    simp only [Option.map_some']
    by_cases h : pyTruthy (CodeElement.mk name .class_ fp lineno el
        (extract_docstring body) none none [] none []
        (body.filterMap (fun item =>
          match item with
          | .functionDef _ _ _ _ _ _ => _parse_function item fp
          | _ => none))
        [] [] .missing [] (_get_visibility name)).docstring
    · rw [if_pos h, visibility_parse_docstring_info]
      rfl
    · rw [if_neg h]
      rfl
  · intro name lineno args defaults rets body fp
    rfl

/-- The `def m(self, x)` method node inside `class C`, used by C6. -/
def c6MethodNode : Stmt :=
  .functionDef "m" 2 [⟨"self", none⟩, ⟨"x", none⟩] [] none []

/-- The `class C` node, used by C6. -/
def c6ClassNode : Stmt :=
  .classDef "C" 1 none [c6MethodNode]

/-- C6 (code evaluation): `_is_method` tests `hasattr(node, 'parent')`,
which no `ast.parse` node satisfies, so it is always False: the element
built for `def m(self, x)` inside `class C` keeps `self` as its first
parameter (and is typed as a function, not a method), both as its own
element and inside the class's methods list. -/
theorem c6_self_not_excluded :
    (_extract_parameters c6MethodNode).map Parameter.name = ["self", "x"] ∧
    _is_method c6MethodNode = false ∧
    (_parse_function c6MethodNode "a.py").map
      (fun e => (e.element_type, e.parameters.map Parameter.name)) =
      some (.function, ["self", "x"]) ∧
    (_parse_class c6ClassNode "a.py").map
      (fun e => e.methods.map (fun me => me.parameters.map Parameter.name)) =
      some [["self", "x"]] := by
  refine ⟨rfl, rfl, rfl, rfl⟩

/-- C9: when `open`+`ast.parse` fails, `parse_file` takes its `except`
branch and returns the empty element sequence (the model's `parse_file` is
a total function, so it never raises). -/
theorem c9_parse_failure_empty (msg stem fp : String) :
    parse_file (.error msg) stem fp = [] := rfl

/-- C10: every function statement in the body of a walked class is parsed
twice: its element appears in the flat element sequence of `parse_file`
(independently of the class) and inside the class element's methods list;
the sequence is not a strict ownership tree. -/
theorem c10_class_functions_twice
    (tree : Module) (stem fp : String)
    (cname : String) (clineno : Nat) (cel : Option Nat) (cbody : List Stmt)
    (fname : String) (fl : Nat) (fa : List AstArg) (fd : List String)
    (frt : Option String) (fb : List Stmt)
    (hc : Stmt.classDef cname clineno cel cbody ∈ walkStmts tree.body)
    (hf : Stmt.functionDef fname fl fa fd frt fb ∈ cbody) :
    ∃ fe ce,
      _parse_function (Stmt.functionDef fname fl fa fd frt fb) fp = some fe ∧
      _parse_class (Stmt.classDef cname clineno cel cbody) fp = some ce ∧
      fe ∈ parse_file (.ok tree) stem fp ∧
      ce ∈ parse_file (.ok tree) stem fp ∧
      fe ∈ ce.methods := by
  have hfwalk : Stmt.functionDef fname fl fa fd frt fb ∈ walkStmts tree.body := by
    unfold walkStmts at hc ⊢
    exact mem_bfsGo_child _ _ _ _ (by simpa [stmtChildren] using hf)
      (Nat.le_refl _) hc
  refine ⟨_, _, rfl, rfl, ?_, ?_, ?_⟩
  · refine List.Mem.tail _ (List.mem_filterMap.mpr
      ⟨Stmt.functionDef fname fl fa fd frt fb, hfwalk, rfl⟩)
  · refine List.Mem.tail _ (List.mem_filterMap.mpr
      ⟨Stmt.classDef cname clineno cel cbody, hc, rfl⟩)
  · by_cases h : pyTruthy (CodeElement.mk cname .class_ fp clineno cel
        (extract_docstring cbody) none none [] none []
        (cbody.filterMap (fun item =>
          match item with
          | .functionDef _ _ _ _ _ _ => _parse_function item fp
          | _ => none))
        [] [] .missing [] (_get_visibility cname)).docstring
    · rw [if_pos h, methods_parse_docstring_info]
      simp only [CodeElement.methods]
      exact List.mem_filterMap.mpr
        ⟨Stmt.functionDef fname fl fa fd frt fb, hf, rfl⟩
    · rw [if_neg h]
      simp only [CodeElement.methods]
      exact List.mem_filterMap.mpr
        ⟨Stmt.functionDef fname fl fa fd frt fb, hf, rfl⟩

/-- The concrete module `class C: def m(self, x)` used by the C10 witness. -/
def c10Module : Module :=
  ⟨[c6ClassNode]⟩

/-- Witness for C10 at the concrete module `class C: def m(self, x)`. -/
theorem c10_class_functions_twice_witness :
    ∃ fe ce,
      _parse_function (Stmt.functionDef "m" 2 [⟨"self", none⟩, ⟨"x", none⟩] []
        none []) "a.py" = some fe ∧
      _parse_class (Stmt.classDef "C" 1 none [c6MethodNode]) "a.py" = some ce ∧
      fe ∈ parse_file (.ok c10Module) "mod" "a.py" ∧
      ce ∈ parse_file (.ok c10Module) "mod" "a.py" ∧
      fe ∈ ce.methods :=
  c10_class_functions_twice c10Module "mod" "a.py" "C" 1 none [c6MethodNode]
    "m" 2 [⟨"self", none⟩, ⟨"x", none⟩] [] none []
    (by rw [show walkStmts c10Module.body = [c6ClassNode, c6MethodNode] from rfl]
        exact List.Mem.head _)
    (List.Mem.head _)

/-- A sample private element, used by the C4 witness. -/
def c4SampleElement : CodeElement :=
  .mk "__secret" .function "a.py" 3 none none none none [] none [] [] [] []
    .missing [] "private"

/-- Witness for C4 at a concrete private element and the default config. -/
theorem c4_private_presence_witness :
    _check_presence (ServerConfig.mk [] {}).analysis c4SampleElement = [] ∧
    _check_element (ServerConfig.mk [] {}) "python" c4SampleElement =
      _check_element
        { ServerConfig.mk [] {} with
          analysis := { (ServerConfig.mk [] {}).analysis with
            check_presence := false } }
        "python" c4SampleElement :=
  c4_private_presence (ServerConfig.mk [] {}) "python" c4SampleElement rfl

end Documenter
